import Mathlib

/-!
Shallow embedding of the media-player core found in `src/media/mod.rs`:
the `Player` playback state machine, its command loop, and the
`PlayQueue` cursor-navigable track list.  The external GStreamer engine
is modelled by its observable transport state; a Rust `panic!` /
failed `assert!` (a fatal, process-terminating condition) is modelled
as `none` in an `Option` result.
-/

namespace Media

/-- Track record from `src/media/mod.rs` (`struct Track`): numeric id,
track number, title, artist, album and the playable file URI.  The core
only ever reads `file`. -/
structure Track where
  id : Nat
  track : Nat
  title : String
  artist : String
  album : String
  file : String
deriving DecidableEq

/-- Transport states of the stream, from `enum StreamState`. -/
inductive StreamState where
  | Playing
  | Paused
  | Stopped
deriving DecidableEq

/-- Native states of the external GStreamer engine (`gst::State`), with
`Unknown` carrying the raw integer of an unrecognized state. -/
inductive GstState where
  | VoidPending
  | Null
  | Ready
  | Paused
  | Playing
  | Unknown (e : Int)
deriving DecidableEq

/-- Embedding of `impl From<gst::State> for StreamState`: the mapping
from the engine's native state to a `StreamState`.  The source panics on
`gst::State::__Unknown(e)`; that fatal outcome is `none` here. -/
def StreamState.fromGst : GstState → Option StreamState
  | GstState.Playing => some StreamState.Playing
  | GstState.Paused => some StreamState.Paused
  | GstState.Null => some StreamState.Stopped
  | GstState.Ready => some StreamState.Stopped
  | GstState.VoidPending => some StreamState.Stopped
  | GstState.Unknown _ => none

/-- Modelled from the spec: the external streaming engine wrapped by
`struct AudioStreamer` (the `playbin` GStreamer element is out of
scope).  It is modelled by its observable transport state, the URI it
was last given, and an abstract playback position. -/
structure AudioStreamer where
  state : StreamState
  uri : Option String
  pos : Nat
deriving DecidableEq

/-- Embedding of `AudioStreamer::new` / a fresh `playbin` element: the
engine starts in the Null (Stopped) state with no URI queued. -/
def AudioStreamer.new : AudioStreamer :=
  { state := StreamState.Stopped, uri := none, pos := 0 }

/-- Embedding of `Streamable::queue` for `AudioStreamer`: sets the
`uri` property of the element. -/
def AudioStreamer.queue (s : AudioStreamer) (uri : String) : AudioStreamer :=
  { s with uri := some uri }

/-- Embedding of `Streamable::start`: moves the engine to Playing. -/
def AudioStreamer.start (s : AudioStreamer) : AudioStreamer :=
  { s with state := StreamState.Playing }

/-- Embedding of `Streamable::stop`: moves the engine to Null
(Stopped), which resets the position to the beginning. -/
def AudioStreamer.stop (s : AudioStreamer) : AudioStreamer :=
  { s with state := StreamState.Stopped, pos := 0 }

/-- Embedding of `Streamable::pause`: moves the engine to Paused,
maintaining the current position. -/
def AudioStreamer.pause (s : AudioStreamer) : AudioStreamer :=
  { s with state := StreamState.Paused }

/-- Modelled from the spec: the `play_queue` module (declared by
`mod play_queue;` in `src/media/mod.rs`) is not present under `src/`,
so `PlayQueue<T>` is modelled from §3/§4.1 of the spec: an ordered
sequence with a single cursor, where the cursor is either undefined
(the empty / before-start sentinel, `none`) or a valid index. -/
structure PlayQueue (α : Type) where
  items : List α
  cursor : Option Nat
deriving DecidableEq

/-- Modelled from the spec: `PlayQueue::new()` — empty queue, undefined
cursor. -/
def PlayQueue.new {α : Type} : PlayQueue α :=
  { items := [], cursor := none }

/-- Modelled from the spec: `PlayQueue::append` — appends to the end,
preserving insertion order; appending never moves the cursor. -/
def PlayQueue.append {α : Type} (q : PlayQueue α) (x : α) : PlayQueue α :=
  { q with items := q.items ++ [x] }

/-- Modelled from the spec: `PlayQueue::current` — the item at the
cursor, or nothing if the queue is empty or the cursor undefined. -/
def PlayQueue.current {α : Type} (q : PlayQueue α) : Option α :=
  q.cursor.bind (fun i => q.items[i]?)

/-- Modelled from the spec: `PlayQueue::next` — advances the cursor by
one if a successor exists and returns the new current item; from the
before-start sentinel on a non-empty queue it moves to the first
element.  On failure it signals nothing and leaves the cursor
unchanged; it does not wrap.  Returns the updated queue and the
result. -/
def PlayQueue.next {α : Type} (q : PlayQueue α) : PlayQueue α × Option α :=
  match q.cursor with
  | none =>
      match q.items[0]? with
      | some x => ({ q with cursor := some 0 }, some x)
      | none => (q, none)
  | some i =>
      match q.items[i+1]? with
      | some x => ({ q with cursor := some (i+1) }, some x)
      | none => (q, none)

/-- Modelled from the spec: `PlayQueue::previous` — moves the cursor
back by one if a predecessor exists; at the first element it stays
there and returns that same element (never goes negative, never
wraps).  On an empty queue or undefined cursor it is a no-op returning
nothing. -/
def PlayQueue.previous {α : Type} (q : PlayQueue α) : PlayQueue α × Option α :=
  match q.cursor with
  | none => (q, none)
  | some i =>
      if i = 0 then (q, q.items[0]?)
      else ({ q with cursor := some (i-1) }, q.items[i-1]?)

/-- Modelled from the spec: `PlayQueue::reset` — returns the cursor to
the first element, leaving the contents unchanged; on an empty queue it
is a no-op. -/
def PlayQueue.reset {α : Type} (q : PlayQueue α) : PlayQueue α :=
  if q.items.isEmpty then q else { q with cursor := some 0 }

/-- Player state from `struct Player`: the looping flag, the play
queue of tracks, and the streaming-engine handle. -/
structure Player where
  is_looping : Bool
  play_queue : PlayQueue Track
  streamer : AudioStreamer
deriving DecidableEq

/-- Embedding of `Player::new`: no queued tracks, not looping, fresh
engine. -/
def Player.new : Player :=
  { is_looping := false, play_queue := PlayQueue.new, streamer := AudioStreamer.new }

/-- Embedding of `Player::is_playing`: true when the engine's live
state is Playing. -/
def Player.is_playing (p : Player) : Bool :=
  p.streamer.state = StreamState.Playing

/-- Embedding of `Player::current_track`: the current track in the
queue, which may or may not be playing. -/
def Player.current_track (p : Player) : Option Track :=
  p.play_queue.current

/-- Embedding of `Player::queue`: adds a track to the end of the play
queue. -/
def Player.queue (p : Player) (t : Track) : Player :=
  { p with play_queue := p.play_queue.append t }

/-- Embedding of `Player::play`: asserts the engine is not already
Playing (a failed assertion is `none`); then, if a current track
exists, queues its file URI into the engine and starts playback,
otherwise does nothing. -/
def Player.play (p : Player) : Option Player :=
  if p.streamer.state = StreamState.Playing then none
  else some (
    match p.current_track with
    | some t => { p with streamer := (p.streamer.queue t.file).start }
    | none => p)

/-- Embedding of `Player::pause`: asserts the engine is not already
Paused (a failed assertion is `none`); then pauses the engine. -/
def Player.pause (p : Player) : Option Player :=
  if p.streamer.state = StreamState.Paused then none
  else some { p with streamer := p.streamer.pause }

/-- Embedding of `Player::stop`: stops the engine only if it is
currently playing; otherwise does nothing. -/
def Player.stop (p : Player) : Player :=
  if p.is_playing then { p with streamer := p.streamer.stop } else p

/-- Embedding of `Player::next_track`: stops current playback, advances
the queue cursor; if the advance fails, resets to the first track when
looping, or returns immediately otherwise; then begins playback of the
current track. -/
def Player.next_track (p : Player) : Option Player :=
  match (p.stop.play_queue.next) with
  | (q, none) =>
      if p.stop.is_looping then
        Player.play { p.stop with play_queue := q.reset }
      else some { p.stop with play_queue := q }
  | (q, some _) => Player.play { p.stop with play_queue := q }

/-- Embedding of `Player::previous_track`: stops current playback,
moves the queue cursor back, then begins playback of the resulting
current track. -/
def Player.previous_track (p : Player) : Option Player :=
  Player.play { p.stop with play_queue := (p.stop.play_queue.previous).1 }

/-- Commands accepted by the player, from `enum PlayerCommand`. -/
inductive PlayerCommand where
  | Queue (t : Track)
  | Play
  | Pause
  | Stop
  | Next
  | Previous
  | Kill
deriving DecidableEq

/-- Whether a command is `Kill`, the only command that terminates the
processing loop. -/
def PlayerCommand.isKill : PlayerCommand → Bool
  | PlayerCommand.Kill => true
  | _ => false

/-- Embedding of the dispatch `match` inside `Player::event_listener`:
the effect of one command on the player.  `Kill` itself does not touch
the player (it only clears the loop's continue flag); a fatal condition
raised by the command is `none`. -/
def Player.applyCommand (p : Player) : PlayerCommand → Option Player
  | PlayerCommand.Queue t => some (p.queue t)
  | PlayerCommand.Play => p.play
  | PlayerCommand.Pause => p.pause
  | PlayerCommand.Stop => some p.stop
  | PlayerCommand.Next => p.next_track
  | PlayerCommand.Previous => p.previous_track
  | PlayerCommand.Kill => some p

/-- Sequential effect of the command loop of `Player::event_listener`
on a list of commands: commands are applied one at a time, in order;
processing ends at the first `Kill` (`should_continue = false`), whose
remaining commands are never applied, and a fatal condition aborts the
whole run (`none`). -/
def processAll (p : Player) : List PlayerCommand → Option Player
  | [] => some p
  | c :: cs =>
      if c.isKill then some p
      else (p.applyCommand c).bind (fun p' => processAll p' cs)

/-- State of the polling loop installed by `Player::event_listener` via
`glib::idle_add`: the player, the ordered channel of pending commands,
the log of commands applied so far, the `should_continue` flag
(`alive`), and whether a fatal condition has terminated the process
(`crashed`). -/
structure LoopState where
  player : Player
  pending : List PlayerCommand
  applied : List PlayerCommand
  alive : Bool
  crashed : Bool
deriving DecidableEq

/-- Initial loop state: the player, the full command sequence pending,
nothing applied, loop running. -/
def initState (p : Player) (cmds : List PlayerCommand) : LoopState :=
  { player := p, pending := cmds, applied := [], alive := true, crashed := false }

/-- One scheduling tick of the polling loop (`glib::idle_add`
callback): if the loop is still alive, it takes at most one pending
command (`rx.try_recv()`), applies it, and clears the continue flag on
`Kill`.  A dead or crashed loop does nothing. -/
def tick (s : LoopState) : LoopState :=
  if s.alive = false ∨ s.crashed then s
  else
    match s.pending with
    | [] => s
    | c :: cs =>
        match s.player.applyCommand c with
        | none =>
            { s with
              pending := cs
              applied := s.applied ++ [c]
              crashed := true
              alive := false }
        | some p' =>
            { player := p'
              pending := cs
              applied := s.applied ++ [c]
              alive := !c.isKill
              crashed := false }

/-- Appending a whole list of tracks to a queue, one `append` at a
time. -/
def appendAll {α : Type} (q : PlayQueue α) (ts : List α) : PlayQueue α :=
  ts.foldl PlayQueue.append q

/-- Concrete track used in witnesses and counterexamples. -/
def trackA : Track :=
  { id := 1, track := 1, title := "A", artist := "art", album := "alb", file := "file://a" }

/-- Second concrete track used in witnesses. -/
def trackB : Track :=
  { id := 2, track := 2, title := "B", artist := "art", album := "alb", file := "file://b" }

/-- Concrete player: playing the first of two queued tracks. -/
def pPlayingA : Player :=
  { is_looping := false
    play_queue := { items := [trackA, trackB], cursor := some 0 }
    streamer := { state := StreamState.Playing, uri := some "file://a", pos := 9 } }

/-- Concrete player: looping, playing the last of two queued tracks. -/
def pLoopingB : Player :=
  { is_looping := true
    play_queue := { items := [trackA, trackB], cursor := some 1 }
    streamer := { state := StreamState.Playing, uri := some "file://b", pos := 7 } }

/-- Concrete player: not looping, paused on the last (only) queued
track. -/
def pPausedLast : Player :=
  { is_looping := false
    play_queue := { items := [trackA], cursor := some 0 }
    streamer := { state := StreamState.Paused, uri := some "file://a", pos := 5 } }

/-- Concrete player: stopped, with one queued track under the
cursor. -/
def pStoppedA : Player :=
  { is_looping := false
    play_queue := { items := [trackA], cursor := some 0 }
    streamer := { state := StreamState.Stopped, uri := none, pos := 0 } }

/-- Stopping never changes the play queue. -/
theorem Player.stop_play_queue (p : Player) : p.stop.play_queue = p.play_queue := by
  unfold Player.stop
  split <;> rfl

/-- Stopping never changes the looping flag. -/
theorem Player.stop_is_looping (p : Player) : p.stop.is_looping = p.is_looping := by
  unfold Player.stop
  split <;> rfl

/-- After `stop`, the engine is never in the Playing state. -/
theorem Player.stop_state_ne_playing (p : Player) :
    ¬ p.stop.streamer.state = StreamState.Playing := by
  unfold Player.stop
  split
  · simp [AudioStreamer.stop]
  · next h =>
      simp only [Player.is_playing, decide_eq_true_eq] at h
      exact h

/-- Playing is a no-op when there is no current track and the engine
is not already playing. -/
theorem Player.play_no_track (p : Player) (h1 : p.current_track = none)
    (h2 : ¬ p.streamer.state = StreamState.Playing) : p.play = some p := by
  simp [Player.play, h1, h2]

/-- On an empty queue, `next` fails and leaves the queue unchanged. -/
theorem PlayQueue.next_nil {α : Type} (q : PlayQueue α) (h : q.items = []) :
    q.next = (q, none) := by
  unfold PlayQueue.next
  cases hc : q.cursor <;> simp [hc, h]

/-- On an empty queue, `reset` is a no-op. -/
theorem PlayQueue.reset_nil {α : Type} (q : PlayQueue α) (h : q.items = []) :
    q.reset = q := by
  simp [PlayQueue.reset, h]

/-- On an empty queue, `current` is nothing. -/
theorem PlayQueue.current_nil {α : Type} (q : PlayQueue α) (h : q.items = []) :
    q.current = none := by
  unfold PlayQueue.current
  cases hc : q.cursor <;> simp [hc, h]

/-- Appending a list of items never moves the cursor. -/
theorem appendAll_cursor {α : Type} (ts : List α) (q : PlayQueue α) :
    (appendAll q ts).cursor = q.cursor := by
  induction ts generalizing q with
  | nil => rfl
  | cons t ts ih =>
      simpa [appendAll, PlayQueue.append] using ih (q.append t)

/-- Appending a list of items appends them in order at the end. -/
theorem appendAll_items {α : Type} (ts : List α) (q : PlayQueue α) :
    (appendAll q ts).items = q.items ++ ts := by
  induction ts generalizing q with
  | nil => simp [appendAll]
  | cons t ts ih =>
      have := ih (q.append t)
      simp [appendAll, PlayQueue.append] at this ⊢
      simp [this]

/-- C4: the `StreamState` derived from the engine's native state maps
engine "playing" to Playing, engine "paused" to Paused, every
idle/ready/uninitialized engine state to Stopped, and any unrecognized
engine state to a fatal, process-terminating condition (`none`). -/
theorem fromGst_total_mapping :
    StreamState.fromGst GstState.Playing = some StreamState.Playing ∧
    StreamState.fromGst GstState.Paused = some StreamState.Paused ∧
    StreamState.fromGst GstState.Null = some StreamState.Stopped ∧
    StreamState.fromGst GstState.Ready = some StreamState.Stopped ∧
    StreamState.fromGst GstState.VoidPending = some StreamState.Stopped ∧
    ∀ e : Int, StreamState.fromGst (GstState.Unknown e) = none :=
  ⟨rfl, rfl, rfl, rfl, rfl, fun _ => rfl⟩

/-- C6: Stop stops the engine and resets the position to the start
only when the engine is Playing; in every other state it is a no-op
(no fatal condition is possible since `stop` is total), and Stop after
Stop equals a single Stop. -/
theorem stop_only_when_playing (p : Player) :
    (p.is_playing = true →
      p.stop.streamer.state = StreamState.Stopped ∧
      p.stop.streamer.pos = 0 ∧
      p.stop.play_queue = p.play_queue ∧
      p.stop.is_looping = p.is_looping) ∧
    (p.is_playing = false → p.stop = p) ∧
    p.stop.stop = p.stop := by
  refine ⟨fun h => ?_, fun h => ?_, ?_⟩
  · simp [Player.stop, h, AudioStreamer.stop]
  · simp [Player.stop, h]
  · by_cases h : p.streamer.state = StreamState.Playing
    · simp [Player.stop, Player.is_playing, h, AudioStreamer.stop]
    · simp [Player.stop, Player.is_playing, h]

/-- Witness for C6 at concrete players: stopping a playing player
stops the engine and resets the position; stopping an already-stopped
player changes nothing. -/
theorem stop_only_when_playing_witness :
    (pPlayingA.stop.streamer.state = StreamState.Stopped ∧
     pPlayingA.stop.streamer.pos = 0 ∧
     pPlayingA.stop.play_queue = pPlayingA.play_queue ∧
     pPlayingA.stop.is_looping = pPlayingA.is_looping) ∧
    pStoppedA.stop = pStoppedA :=
  ⟨(stop_only_when_playing pPlayingA).1 (by decide),
   (stop_only_when_playing pStoppedA).2.1 (by decide)⟩

/-- C9: with no current track (empty queue or undefined cursor) and
the engine not already Playing, `play` is a silent no-op: the player
is unchanged and no fatal condition is raised. -/
theorem play_is_noop_without_current_track (p : Player)
    (h1 : p.current_track = none)
    (h2 : ¬ p.streamer.state = StreamState.Playing) : p.play = some p :=
  Player.play_no_track p h1 h2

/-- Witness for C9: a fresh player has no current track and is not
playing, and `play` leaves it unchanged. -/
theorem play_is_noop_without_current_track_witness :
    Player.play Player.new = some Player.new :=
  play_is_noop_without_current_track Player.new rfl (by decide)

/-- C10: `next_track` on an empty play queue never starts playback and
never raises a fatal condition, for both values of the looping flag:
the result is exactly the stopped player, whose engine is not
Playing. -/
theorem next_track_on_empty_queue (p : Player) (h : p.play_queue.items = []) :
    p.next_track = some p.stop ∧ ¬ p.stop.streamer.state = StreamState.Playing := by
  have hq := Player.stop_play_queue p
  have h2 : p.stop.play_queue.items = [] := by rw [hq, h]
  refine ⟨?_, Player.stop_state_ne_playing p⟩
  unfold Player.next_track
  rw [PlayQueue.next_nil _ h2]
  show (if p.stop.is_looping then
          Player.play { p.stop with play_queue := p.stop.play_queue.reset }
        else some { p.stop with play_queue := p.stop.play_queue }) = some p.stop
  by_cases hl : p.stop.is_looping = true
  · rw [if_pos hl, PlayQueue.reset_nil _ h2]
    exact Player.play_no_track p.stop
      (PlayQueue.current_nil _ h2) (Player.stop_state_ne_playing p)
  · rw [if_neg hl]

/-- Witness for C10: on a fresh (empty-queue) player, `next_track`
returns the stopped player and the engine is not playing. -/
theorem next_track_on_empty_queue_witness :
    Player.next_track Player.new = some Player.new.stop ∧
    ¬ Player.new.stop.streamer.state = StreamState.Playing :=
  next_track_on_empty_queue Player.new rfl

/-- C7: for a freshly constructed PlayQueue, after any sequence of
`append` calls, `current` returns nothing and the cursor stays
undefined, until an explicit `reset` or `next` (each of which, on a
non-empty queue, makes the first appended item current). -/
theorem fresh_queue_current_none (ts : List Track) :
    (appendAll PlayQueue.new ts).current = none ∧
    (appendAll PlayQueue.new ts).cursor = none ∧
    (ts ≠ [] →
      ((appendAll PlayQueue.new ts).reset).current = ts[0]? ∧
      ((appendAll PlayQueue.new ts).next).2 = ts[0]?) := by
  have hc : (appendAll (PlayQueue.new (α := Track)) ts).cursor = none :=
    appendAll_cursor ts PlayQueue.new
  have hi : (appendAll (PlayQueue.new (α := Track)) ts).items = ts := by
    simpa [PlayQueue.new] using appendAll_items ts (PlayQueue.new (α := Track))
  refine ⟨?_, hc, fun hne => ⟨?_, ?_⟩⟩
  · simp [PlayQueue.current, hc]
  · simp [PlayQueue.reset, PlayQueue.current, hi, hne]
  · obtain ⟨t, ht⟩ : ∃ t, ts[0]? = some t := by
      cases ts with
      | nil => exact absurd rfl hne
      | cons a l => exact ⟨a, by simp⟩
    unfold PlayQueue.next
    rw [hc]
    simp [hi, ht]

/-- Witness for C7 on the concrete queue [A, B]: `current` is none
after the appends, and becomes track A after `reset` or `next`. -/
theorem fresh_queue_current_none_witness :
    (appendAll PlayQueue.new [trackA, trackB]).current = none ∧
    ((appendAll PlayQueue.new [trackA, trackB]).reset).current = some trackA ∧
    ((appendAll PlayQueue.new [trackA, trackB]).next).2 = some trackA := by
  have h := fresh_queue_current_none [trackA, trackB]
  have h3 := h.2.2 (by simp)
  exact ⟨h.1, by simpa using h3.1, by simpa using h3.2⟩

/-- Playing with a current track loads its URI and starts the engine,
provided the engine is not already Playing. -/
theorem Player.play_some_track (p : Player) (t : Track) (h1 : p.current_track = some t)
    (h2 : ¬ p.streamer.state = StreamState.Playing) :
    p.play = some { p with streamer := (p.streamer.queue t.file).start } := by
  simp [Player.play, h1, h2]

/-- With a successor available, `next` advances the cursor by one and
returns the successor. -/
theorem PlayQueue.next_succ {α : Type} (q : PlayQueue α) (i : Nat) (t : α)
    (hc : q.cursor = some i) (ht : q.items[i+1]? = some t) :
    q.next = ({ q with cursor := some (i+1) }, some t) := by
  simp [PlayQueue.next, hc, ht]

/-- With no successor available, `next` fails and leaves the queue
unchanged. -/
theorem PlayQueue.next_fail {α : Type} (q : PlayQueue α) (i : Nat)
    (hc : q.cursor = some i) (ht : q.items[i+1]? = none) :
    q.next = (q, none) := by
  simp [PlayQueue.next, hc, ht]

/-- On a non-empty queue, `reset` places the cursor on the first
element. -/
theorem PlayQueue.reset_of_ne_nil {α : Type} (q : PlayQueue α) (h : q.items ≠ []) :
    q.reset = { q with cursor := some 0 } := by
  simp [PlayQueue.reset, h]

/-- With the cursor at a defined position, `previous` keeps the items
and moves the cursor to the predecessor, staying at the first element
when already there. -/
theorem PlayQueue.previous_fst {α : Type} (q : PlayQueue α) (i : Nat)
    (hc : q.cursor = some i) :
    (q.previous).1.items = q.items ∧ (q.previous).1.cursor = some (i - 1) := by
  unfold PlayQueue.previous
  rw [hc]
  by_cases hi : i = 0
  · subst hi
    simpa using hc
  · simp [hi]

/-- A list is the take of its own length from any extension. -/
theorem take_of_append_eq {α : Type} (l1 l2 all : List α) (h : l1 ++ l2 = all) :
    l1 = all.take l1.length := by
  rw [← h, List.take_left]

/-- One tick of the loop preserves the sent command sequence (applied
followed by pending) and applies at most one command. -/
theorem tick_applied_pending (s : LoopState) :
    (tick s).applied ++ (tick s).pending = s.applied ++ s.pending ∧
    (tick s).applied.length ≤ s.applied.length + 1 := by
  obtain ⟨pl, pend, app, al, cr⟩ := s
  cases al <;> cases cr <;> cases pend <;>
    simp [tick, Nat.le_succ]
  all_goals
    rename_i c cs
  all_goals
    cases hap : pl.applyCommand c <;> simp [hap]

/-- C3: issuing Play while the engine is already Playing is fatal
(`none`), issuing Pause while already Paused is fatal; under their
preconditions, Play loads the current track's URI into the engine and
starts playback, and Pause pauses the engine preserving the
position. -/
theorem play_pause_fatal_preconditions (p : Player) :
    (p.streamer.state = StreamState.Playing → p.play = none) ∧
    (p.streamer.state = StreamState.Paused → p.pause = none) ∧
    (¬ p.streamer.state = StreamState.Playing → ∀ t, p.current_track = some t →
      ∃ p', p.play = some p' ∧
        p'.streamer.uri = some t.file ∧
        p'.streamer.state = StreamState.Playing ∧
        p'.play_queue = p.play_queue) ∧
    (¬ p.streamer.state = StreamState.Paused →
      ∃ p', p.pause = some p' ∧
        p'.streamer.state = StreamState.Paused ∧
        p'.streamer.pos = p.streamer.pos ∧
        p'.streamer.uri = p.streamer.uri ∧
        p'.play_queue = p.play_queue) := by
  refine ⟨fun h => ?_, fun h => ?_, fun h t ht => ?_, fun h => ?_⟩
  · simp [Player.play, h]
  · simp [Player.pause, h]
  · exact ⟨{ p with streamer := (p.streamer.queue t.file).start },
      Player.play_some_track p t ht h, rfl, rfl, rfl⟩
  · exact ⟨{ p with streamer := p.streamer.pause },
      by simp [Player.pause, h], rfl, rfl, rfl, rfl⟩

/-- Witness for C3: Play on an already-playing player and Pause on an
already-paused player are fatal; on a stopped player with track A
current, Play loads A's URI and starts, and Pause pauses in place. -/
theorem play_pause_fatal_preconditions_witness :
    pPlayingA.play = none ∧
    pPausedLast.pause = none ∧
    (∃ p', pStoppedA.play = some p' ∧
      p'.streamer.uri = some trackA.file ∧
      p'.streamer.state = StreamState.Playing ∧
      p'.play_queue = pStoppedA.play_queue) ∧
    (∃ p', pStoppedA.pause = some p' ∧
      p'.streamer.state = StreamState.Paused ∧
      p'.streamer.pos = pStoppedA.streamer.pos ∧
      p'.streamer.uri = pStoppedA.streamer.uri ∧
      p'.play_queue = pStoppedA.play_queue) :=
  ⟨(play_pause_fatal_preconditions pPlayingA).1 rfl,
   (play_pause_fatal_preconditions pPausedLast).2.1 rfl,
   (play_pause_fatal_preconditions pStoppedA).2.2.1 (by decide) trackA rfl,
   (play_pause_fatal_preconditions pStoppedA).2.2.2 (by decide)⟩

/-- C2: Previous stops current playback, moves the cursor back by one
position (staying at the first track if already there, rather than
failing or wrapping), and begins playback of the resulting current
track. -/
theorem previous_track_steps_back_and_plays (p : Player) (i : Nat)
    (hc : p.play_queue.cursor = some i) (hl : i < p.play_queue.items.length) :
    ∃ p', p.previous_track = some p' ∧
      p'.play_queue.cursor = some (i - 1) ∧
      p'.play_queue.items = p.play_queue.items ∧
      p'.streamer.state = StreamState.Playing ∧
      p'.streamer.uri = (p.play_queue.items[i-1]?).map Track.file := by
  have hq := Player.stop_play_queue p
  have hc' : p.stop.play_queue.cursor = some i := by rw [hq]; exact hc
  obtain ⟨hitems, hcur⟩ := PlayQueue.previous_fst p.stop.play_queue i hc'
  have hlen : i - 1 < p.play_queue.items.length :=
    lt_of_le_of_lt (Nat.sub_le i 1) hl
  obtain ⟨t, ht⟩ : ∃ t, p.play_queue.items[i-1]? = some t :=
    ⟨_, List.getElem?_eq_getElem hlen⟩
  set p2 : Player := { p.stop with play_queue := (p.stop.play_queue.previous).1 } with hp2
  have hcurtr : p2.current_track = some t := by
    show ((p.stop.play_queue.previous).1.cursor.bind
      fun j => (p.stop.play_queue.previous).1.items[j]?) = some t
    rw [hcur, hitems, hq]
    simpa using ht
  have hst : ¬ p2.streamer.state = StreamState.Playing :=
    Player.stop_state_ne_playing p
  have hplay := Player.play_some_track p2 t hcurtr hst
  have hmain : p.previous_track = some { p2 with streamer := (p2.streamer.queue t.file).start } := by
    unfold Player.previous_track
    exact hplay
  refine ⟨{ p2 with streamer := (p2.streamer.queue t.file).start }, hmain, hcur,
    hitems.trans (congrArg PlayQueue.items hq), rfl, ?_⟩
  rw [ht]
  rfl

/-- Witness for C2: on a player playing the first of two queued
tracks, Previous stays on the first track and starts playing it. -/
theorem previous_track_steps_back_and_plays_witness :
    ∃ p', pPlayingA.previous_track = some p' ∧
      p'.play_queue.cursor = some (0 - 1) ∧
      p'.play_queue.items = pPlayingA.play_queue.items ∧
      p'.streamer.state = StreamState.Playing ∧
      p'.streamer.uri = (pPlayingA.play_queue.items[0-1]?).map Track.file :=
  previous_track_steps_back_and_plays pPlayingA 0 rfl (by decide)

/-- C1 counterexample: the claim says that with no successor and
looping off, the player is left stopped; but `next_track` on a player
paused at the last track leaves the player entirely unchanged, so the
engine stays Paused, not Stopped. -/
theorem next_track_not_left_stopped :
    pPausedLast.is_looping = false ∧
    pPausedLast.next_track = some pPausedLast ∧
    pPausedLast.streamer.state = StreamState.Paused ∧
    ¬ StreamState.Paused = StreamState.Stopped := by
  refine ⟨rfl, ?_, rfl, by decide⟩
  decide

/-- C1 (amended): for a player whose cursor is at a valid position,
`next_track` stops current playback and advances the queue cursor; if
a successor exists, it begins playback of it; if no successor exists
and looping is on, the cursor resets to the first track and playback
of it begins; if no successor exists and looping is off, no further
action is taken and the player is left not playing (playback was
stopped if it was running; otherwise the engine state, e.g. Paused, is
unchanged). -/
theorem next_track_spec (p : Player) (i : Nat)
    (hc : p.play_queue.cursor = some i) (hl : i < p.play_queue.items.length) :
    (i + 1 < p.play_queue.items.length →
      ∃ p', p.next_track = some p' ∧
        p'.play_queue.cursor = some (i + 1) ∧
        p'.play_queue.items = p.play_queue.items ∧
        p'.streamer.state = StreamState.Playing ∧
        p'.streamer.uri = (p.play_queue.items[i+1]?).map Track.file) ∧
    (p.play_queue.items.length ≤ i + 1 → p.is_looping = true →
      ∃ p', p.next_track = some p' ∧
        p'.play_queue.cursor = some 0 ∧
        p'.play_queue.items = p.play_queue.items ∧
        p'.streamer.state = StreamState.Playing ∧
        p'.streamer.uri = (p.play_queue.items[0]?).map Track.file) ∧
    (p.play_queue.items.length ≤ i + 1 → p.is_looping = false →
      p.next_track = some p.stop ∧
      ¬ p.stop.streamer.state = StreamState.Playing ∧
      p.stop.play_queue = p.play_queue) := by
  have hq := Player.stop_play_queue p
  have hc' : p.stop.play_queue.cursor = some i := by rw [hq]; exact hc
  refine ⟨fun hsucc => ?_, fun hlast hloop => ?_, fun hlast hnoloop => ?_⟩
  · -- a successor exists
    obtain ⟨t, ht⟩ : ∃ t, p.play_queue.items[i+1]? = some t :=
      ⟨_, List.getElem?_eq_getElem hsucc⟩
    have hnext : p.stop.play_queue.next =
        ({ p.stop.play_queue with cursor := some (i+1) }, some t) :=
      PlayQueue.next_succ _ i t hc' (by rw [hq]; exact ht)
    set p2 : Player := { p.stop with play_queue := { p.stop.play_queue with cursor := some (i+1) } } with hp2
    have hcurtr : p2.current_track = some t := by
      show ((some (i+1)).bind fun j => p.stop.play_queue.items[j]?) = some t
      rw [hq]
      simpa using ht
    have hst : ¬ p2.streamer.state = StreamState.Playing :=
      Player.stop_state_ne_playing p
    have hplay := Player.play_some_track p2 t hcurtr hst
    have hmain : p.next_track = some { p2 with streamer := (p2.streamer.queue t.file).start } := by
      unfold Player.next_track
      rw [hnext]
      exact hplay
    refine ⟨{ p2 with streamer := (p2.streamer.queue t.file).start }, hmain, rfl, ?_, rfl, ?_⟩
    · have hitems : p.stop.play_queue.items = p.play_queue.items :=
        congrArg PlayQueue.items hq
      exact hitems
    · rw [ht]
      rfl
  · -- no successor, looping: reset to the first track and play it
    have hne : p.play_queue.items ≠ [] := by
      intro h0
      rw [h0] at hl
      exact absurd hl (by simp)
    have ht' : p.stop.play_queue.items[i+1]? = none := by
      rw [hq]
      exact List.getElem?_eq_none hlast
    have hnext := PlayQueue.next_fail p.stop.play_queue i hc' ht'
    have hreset : p.stop.play_queue.reset = { p.stop.play_queue with cursor := some 0 } :=
      PlayQueue.reset_of_ne_nil _ (by rw [hq]; exact hne)
    obtain ⟨t0, ht0⟩ : ∃ t0, p.play_queue.items[0]? = some t0 :=
      ⟨_, List.getElem?_eq_getElem (List.length_pos.mpr hne)⟩
    set p2 : Player := { p.stop with play_queue := { p.stop.play_queue with cursor := some 0 } } with hp2
    have hcurtr : p2.current_track = some t0 := by
      show ((some 0).bind fun j => p.stop.play_queue.items[j]?) = some t0
      rw [hq]
      simpa using ht0
    have hst : ¬ p2.streamer.state = StreamState.Playing :=
      Player.stop_state_ne_playing p
    have hplay := Player.play_some_track p2 t0 hcurtr hst
    have hloop' : p.stop.is_looping = true := by
      rw [Player.stop_is_looping]
      exact hloop
    have hmain : p.next_track = some { p2 with streamer := (p2.streamer.queue t0.file).start } := by
      unfold Player.next_track
      rw [hnext]
      show (if p.stop.is_looping then
              Player.play { p.stop with play_queue := p.stop.play_queue.reset }
            else some { p.stop with play_queue := p.stop.play_queue }) = _
      rw [if_pos hloop', hreset]
      exact hplay
    refine ⟨{ p2 with streamer := (p2.streamer.queue t0.file).start }, hmain, rfl, ?_, rfl, ?_⟩
    · have hitems : p.stop.play_queue.items = p.play_queue.items :=
        congrArg PlayQueue.items hq
      exact hitems
    · rw [ht0]
      rfl
  · -- no successor, not looping: nothing further happens
    have ht' : p.stop.play_queue.items[i+1]? = none := by
      rw [hq]
      exact List.getElem?_eq_none hlast
    have hnext := PlayQueue.next_fail p.stop.play_queue i hc' ht'
    have hnoloop' : ¬ p.stop.is_looping = true := by
      rw [Player.stop_is_looping, hnoloop]
      simp
    refine ⟨?_, Player.stop_state_ne_playing p, hq⟩
    unfold Player.next_track
    rw [hnext]
    show (if p.stop.is_looping then
            Player.play { p.stop with play_queue := p.stop.play_queue.reset }
          else some { p.stop with play_queue := p.stop.play_queue }) = some p.stop
    rw [if_neg hnoloop']

/-- Witness for C1 (amended) on the looping scenario from the spec: a
looping player playing the last of two tracks [A, B]; `next_track`
resets the cursor to the first track and starts playing A. -/
theorem next_track_spec_witness :
    ∃ p', pLoopingB.next_track = some p' ∧
      p'.play_queue.cursor = some 0 ∧
      p'.play_queue.items = pLoopingB.play_queue.items ∧
      p'.streamer.state = StreamState.Playing ∧
      p'.streamer.uri = (pLoopingB.play_queue.items[0]?).map Track.file :=
  (next_track_spec pLoopingB 1 rfl (by decide)).2.1 (by decide) rfl

/-- C5: once Kill is reached, processing terminates: the commands sent
after Kill have no effect — processing any sequence `pre ++ Kill ::
post` starts and ends exactly as processing `pre ++ [Kill]` does. -/
theorem kill_terminates_processing (p : Player) (pre post : List PlayerCommand) :
    processAll p (pre ++ PlayerCommand.Kill :: post) =
      processAll p (pre ++ [PlayerCommand.Kill]) := by
  induction pre generalizing p with
  | nil => rfl
  | cons c cs ih =>
      show processAll p (c :: (cs ++ PlayerCommand.Kill :: post)) =
        processAll p (c :: (cs ++ [PlayerCommand.Kill]))
      unfold processAll
      by_cases hk : c.isKill = true
      · rw [if_pos hk, if_pos hk]
      · rw [if_neg hk, if_neg hk]
        cases hap : p.applyCommand c with
        | none => rfl
        | some p' => simpa using ih p'

/-- C8: after any number of ticks of the polling loop, the commands
applied so far followed by the still-pending ones equal the sent
sequence (no reordering, no loss, no batching), the applied commands
are exactly an in-order front segment of the sent sequence, and at
most one command has been applied per tick. -/
theorem commands_applied_in_order (p : Player) (cmds : List PlayerCommand) (n : Nat) :
    (tick^[n] (initState p cmds)).applied ++ (tick^[n] (initState p cmds)).pending = cmds ∧
    (tick^[n] (initState p cmds)).applied
      = cmds.take (tick^[n] (initState p cmds)).applied.length ∧
    (tick^[n] (initState p cmds)).applied.length ≤ n := by
  induction n with
  | zero =>
      exact ⟨rfl, rfl, Nat.le_refl _⟩
  | succ n ih =>
      have hstep := tick_applied_pending (tick^[n] (initState p cmds))
      rw [Function.iterate_succ_apply']
      have h1 := hstep.1.trans ih.1
      exact ⟨h1, take_of_append_eq _ _ _ h1, hstep.2.trans (Nat.succ_le_succ ih.2.2)⟩

end Media
